import Mathlib

/-!
Verification development for the School-AI analysis backend
(`src/app.py`, `src/src/backend/app2.py`).

Conventions of the embedding:

* Python floats are modelled by `F`: an exact rational together with the
  special values `nan`, `inf`, `ninf` produced by division by zero
  (`0/0 → nan`, `x/0 → ±inf`), exactly the NumPy semantics the code relies
  on.  Since Cramér's V is `sqrt(chi2 / (n * min_dim))` and the square root
  of a rational is irrational, every model stores the *squared* strength
  `chi2 / (n * min_dim)`.  `sqrt` is strictly monotone on `[0, ∞]`, fixes
  `0`, and maps `nan`/`inf` to themselves, so all claims stated here
  (exclusion decisions, equality with `0`, descending order) transfer
  verbatim between the squared and unsquared value.
* A dataframe is a list of named columns `List (String × List String)`;
  all columns of one frame have equal length (pandas aligns them on a
  shared index).
* `scipy.stats.chi2_contingency` is embedded by `chi2cont`: expected
  frequencies `E i j = rowTotal i * colTotal j / n`, the `dof == 0`
  degenerate shortcut returning `0.0`, the Yates continuity correction
  (`observed + 0.5 * sign(expected - observed)`) when `correction=True`
  and `dof == 1`, and the plain power-divergence sum otherwise.
-/

namespace SchoolAI

/-- Model of an IEEE double as used by the code: an exact rational or one of
the special values produced by NumPy division. -/
inductive F where
  | nan : F
  | ninf : F
  | num : ℚ → F
  | inf : F
deriving DecidableEq

/-- `NaN` test, mirroring `np.isnan` (`isnan(±inf) = False`). -/
def F.isNaN : F → Bool
  | F.nan => true
  | _ => false

/-- NumPy division of two exact rationals: `0/0` is `NaN`, `x/0` is `±inf`
for `x ≠ 0`, otherwise exact rational division. -/
def qdiv (a b : ℚ) : F :=
  if b = 0 then
    if a = 0 then F.nan
    else if 0 < a then F.inf
    else F.ninf
  else F.num (a / b)

/-- Comparison used to model Python `sorted` on float keys, as a total
order with `nan < ninf < num _ < inf`.  It agrees with IEEE `≤` whenever
both arguments are numeric; CPython leaves sort order unspecified when a
`NaN` key is present, and the theorems below only use this relation under
a no-`NaN` hypothesis. -/
def F.leB : F → F → Bool
  | F.nan, _ => true
  | _, F.nan => false
  | F.ninf, _ => true
  | _, F.ninf => false
  | F.num a, F.num b => a ≤ b
  | F.num _, F.inf => true
  | F.inf, F.num _ => false
  | F.inf, F.inf => true

/-- Descending-by-key order used to embed
`sorted(results, key=lambda x: x[k], reverse=True)` (a stable sort;
`List.insertionSort` is also stable, so the outputs coincide for numeric
keys). -/
def byKeyDesc {α : Type} (key : α → F) : α → α → Prop :=
  fun a b => F.leB (key b) (key a) = true

instance {α : Type} (key : α → F) : DecidableRel (byKeyDesc key) :=
  fun a b => instDecidableEqBool (F.leB (key b) (key a)) true

theorem fLeB_total (x y : F) : F.leB x y = true ∨ F.leB y x = true := by
  cases x <;> cases y <;> simp [F.leB] <;> exact le_total _ _

theorem fLeB_trans {x y z : F} (h1 : F.leB x y = true) (h2 : F.leB y z = true) :
    F.leB x z = true := by
  cases x <;> cases y <;> cases z <;> simp_all [F.leB] <;> exact le_trans h1 h2

instance {α : Type} (key : α → F) : IsTotal α (byKeyDesc key) :=
  ⟨fun a b => (fLeB_total (key b) (key a)).imp id id⟩

instance {α : Type} (key : α → F) : IsTrans α (byKeyDesc key) :=
  ⟨fun _ _ _ h1 h2 => fLeB_trans h2 h1⟩

/-- `interpret_cramers_v` (src/app.py lines 23-33). -/
def interpret_cramers_v (v : ℚ) : String :=
  if v < 1/10 then "Very weak"
  else if v < 3/10 then "Weak"
  else if v < 1/2 then "Moderate"
  else if v < 7/10 then "Strong"
  else "Very strong"

/-- Rank of an interpretation label in the five-band scale, used to state
stepwise monotonicity of `interpret_cramers_v`. -/
def labelRank (s : String) : ℕ :=
  if s = "Very weak" then 0
  else if s = "Weak" then 1
  else if s = "Moderate" then 2
  else if s = "Strong" then 3
  else 4

/-- `itertools.combinations(xs, 2)` as used by
`compute_average_cramers_v` (src/app.py line 227) and
`process_batches_with_eta` (src/src/backend/app2.py line 237): all pairs
`(xs[i], xs[j])` with `i < j`, in lexicographic index order. -/
def combinations2 {α : Type} : List α → List (α × α)
  | [] => []
  | x :: xs => (xs.map fun y => (x, y)) ++ combinations2 xs

/-- `itertools.combinations(xs, r)` (src/app.py line 416): all
length-`r` sublists of `xs` in the order itertools emits them. -/
def combinationsLen {α : Type} : ℕ → List α → List (List α)
  | 0, _ => [[]]
  | _ + 1, [] => []
  | r + 1, x :: xs => (combinationsLen r xs).map (x :: ·) ++ combinationsLen (r + 1) xs

/-- `itertools.product(*lists)` (src/app.py line 419): cross product with
the rightmost factor varying fastest. -/
def listProd {α : Type} : List (List α) → List (List α)
  | [] => [[]]
  | l :: ls => l.map (fun x => (listProd ls).map (x :: ·)) |>.flatten

/-- `col.split('_')[0]` (src/app.py lines 363 and 408, 421): the prefix of
a column name before the first underscore. -/
def groupKeyOf (s : String) : String :=
  String.mk (s.toList.takeWhile (· ≠ '_'))

section Contingency

variable {α β : Type} [DecidableEq α] [DecidableEq β]

/-- Observed count of the contingency-table cell `(a, b)` for
`pd.crosstab(series1, series2)`: the number of rows where the first
series equals `a` and the second equals `b`. -/
def cellO (ps : List (α × β)) (a : α) (b : β) : ℚ :=
  (ps.countP (fun p => decide (p.1 = a ∧ p.2 = b)) : ℚ)

/-- Row total of the contingency table for row label `a`. -/
def rowT (ps : List (α × β)) (a : α) : ℚ :=
  (ps.countP (fun p => decide (p.1 = a)) : ℚ)

/-- Column total of the contingency table for column label `b`. -/
def colT (ps : List (α × β)) (b : β) : ℚ :=
  (ps.countP (fun p => decide (p.2 = b)) : ℚ)

/-- Expected frequency of cell `(a, b)`:
`rowTotal * colTotal / n`, as computed inside `scipy.stats.chi2_contingency`. -/
def cellE (ps : List (α × β)) (a : α) (b : β) : ℚ :=
  rowT ps a * colT ps b / (ps.length : ℚ)

/-- One cell's contribution `(O - E)^2 / E` to the chi-square statistic.
The `E = 0` guard is unreachable for a crosstab of observed data (every
row/column label occurs at least once, so all marginals are positive);
it only keeps the definition total. -/
def chiCell (O E : ℚ) : ℚ :=
  if E = 0 then 0 else (O - E) ^ 2 / E

/-- Yates continuity correction applied by scipy when `correction=True`
and `dof == 1`: `observed + 0.5 * sign(expected - observed)`. -/
def yatesAdj (O E : ℚ) : ℚ :=
  O + (if O < E then 1/2 else if E < O then -(1/2) else 0)

/-- Row labels of `pd.crosstab(series1, series2)`: the distinct values of
the first series. -/
def tblRows (xs : List α) : ℕ := xs.dedup.length

/-- Column labels of `pd.crosstab(series1, series2)`: the distinct values
of the second series. -/
def tblCols (ys : List β) : ℕ := ys.dedup.length

/-- Total observation count `n = crosstab.sum().sum()`. -/
def nobs (xs : List α) (ys : List β) : ℚ := ((xs.zip ys).length : ℚ)

/-- Uncorrected chi-square statistic over the crosstab of two series
(the power-divergence sum with `lambda_ = 1`). -/
def chi2plain (xs : List α) (ys : List β) : ℚ :=
  (xs.dedup.map (fun a =>
    (ys.dedup.map (fun b =>
      chiCell (cellO (xs.zip ys) a b) (cellE (xs.zip ys) a b))).sum)).sum

/-- Chi-square statistic with the Yates continuity correction
(each observed count moved `0.5` towards its expected value). -/
def chi2yates (xs : List α) (ys : List β) : ℚ :=
  (xs.dedup.map (fun a =>
    (ys.dedup.map (fun b =>
      chiCell (yatesAdj (cellO (xs.zip ys) a b) (cellE (xs.zip ys) a b))
        (cellE (xs.zip ys) a b))).sum)).sum

/-- `scipy.stats.chi2_contingency(crosstab, correction)[0]`:
`dof = (rows - 1) * (cols - 1)`; `0.0` when `dof == 0` (scipy's degenerate
shortcut — then `observed == expected`); the Yates-corrected sum when
`correction` and `dof == 1`; the plain sum otherwise. -/
def chi2cont (correction : Bool) (xs : List α) (ys : List β) : ℚ :=
  let dof := (tblRows xs - 1) * (tblCols ys - 1)
  if dof = 0 then 0
  else if correction = true ∧ dof = 1 then chi2yates xs ys
  else chi2plain xs ys

/-- Squared Cramér's V as computed by src/app.py (lines 235-237 and
375-377): `chi2 / (n * (min(crosstab.shape) - 1))` with
`chi2_contingency`'s default `correction=True`, evaluated with NumPy
float semantics (a degenerate table gives `0/0 = NaN`). -/
def cramersVsqApp (xs : List α) (ys : List β) : F :=
  qdiv (chi2cont true xs ys)
    (nobs xs ys * ((min (tblRows xs) (tblCols ys) : ℚ) - 1))

end Contingency

/-- Value part of `calculate_cramers_v_with_details`
(src/src/backend/app2.py lines 190-204): `chi2_contingency(contingency,
correction=False)`, then `min_dim = min(contingency.shape) - 1`; return
`0` when `min_dim <= 0`, otherwise the (squared) value
`chi2 / (n * min_dim)`. -/
def calcValueSq (xs ys : List String) : F :=
  let chi2 := chi2cont false xs ys
  let minDim : ℤ := (min (tblRows xs) (tblCols ys) : ℤ) - 1
  if minDim ≤ 0 then F.num 0
  else qdiv chi2 (nobs xs ys * (minDim : ℚ))

/-- One entry of the batch scheduler's result list
(src/src/backend/app2.py lines 217-222); `value` holds the squared
Cramér's V. -/
structure PairRec where
  col1 : String
  col2 : String
  value : F
deriving DecidableEq

/-- `process_pair` (src/src/backend/app2.py lines 210-230, the definition
in effect).  `ncea` abstracts the `analyze_ncea_results`-based mapping of
an `'NCEA Results'` cell to its primary achievement label (that mapping
parses Python literals via `ast.literal_eval`, outside the model); for
all other column names the raw series are cross-tabulated unchanged.  The
`except` branch (value `0`) is unreachable here because every failure
inside `calculate_cramers_v_with_details` is already caught there. -/
def processPair (ncea : String → String) (data : List (String × List String))
    (c1 c2 : String) : PairRec :=
  let s1 := (data.lookup c1).getD []
  let s2 := (data.lookup c2).getD []
  if c1 = "NCEA Results" ∨ c2 = "NCEA Results" then
    let nceaCol := if c1 = "NCEA Results" then s1 else s2
    let otherCol := if c1 = "NCEA Results" then s2 else s1
    { col1 := c1, col2 := c2, value := calcValueSq (nceaCol.map ncea) otherCol }
  else
    { col1 := c1, col2 := c2, value := calcValueSq s1 s2 }

/-- The batch loop of `process_batches_with_eta` (src/src/backend/app2.py
lines 247-256): slices of `bs` work items processed in order, results
concatenated in slice order (`joblib.Parallel` returns each batch's
results in input order). -/
def processLoop {α β : Type} (bs : ℕ) (f : α → β) (l : List α) : List β :=
  if l.isEmpty ∨ bs = 0 then []
  else (l.take bs).map f ++ processLoop bs f (l.drop bs)
termination_by l.length
decreasing_by
  rename_i h
  simp only [not_or, List.isEmpty_iff] at h
  simpa using Nat.sub_lt (List.length_pos.mpr h.1) (Nat.pos_of_ne_zero h.2)

/-- Aggregate output of `process_batches_with_eta` (src/src/backend/app2.py
lines 269-277).  `validRecs` is the sublist of `pairs` passing the filter
`r['value'] is not None and not np.isnan(r['value'])` (`process_pair`
never returns `None`, so only the `NaN` test is live); the returned
`average_cramers_v` is `(Σ √v over validRecs) / valid_pairs` (or `0` when
empty), so membership in `validRecs` is exactly contribution to the
average. -/
structure BatchOut where
  valid_pairs : ℕ
  validRecs : List PairRec
  pairs : List PairRec
deriving DecidableEq

/-- `process_batches_with_eta` (src/src/backend/app2.py lines 232-277)
without the ETA side channel (modelled separately by `app2EtaTrace`):
raises for fewer than two selected columns, otherwise processes all
`C(n,2)` pairs in batches of `bs`. -/
def processBatches (ncea : String → String) (data : List (String × List String))
    (sel : List String) (bs : ℕ) : Except String BatchOut :=
  if sel.length < 2 then
    Except.error "Please select at least two columns for analysis"
  else
    let results := processLoop bs (fun p => processPair ncea data p.1 p.2)
      (combinations2 sel)
    let valids := results.filter (fun r => ¬ r.value.isNaN)
    Except.ok { valid_pairs := valids.length, validRecs := valids, pairs := results }

/-- `pairs` of a batch run, `[]` on the raise branch. -/
def exPairs : Except String BatchOut → List PairRec
  | Except.ok o => o.pairs
  | Except.error _ => []

/-- Valid (average-contributing) records of a batch run, `[]` on the raise
branch. -/
def exValidRecs : Except String BatchOut → List PairRec
  | Except.ok o => o.validRecs
  | Except.error _ => []

/-- `valid_pairs` of a batch run, `0` on the raise branch. -/
def exValidCount : Except String BatchOut → ℕ
  | Except.ok o => o.valid_pairs
  | Except.error _ => 0

/-- One pair contributing to `compute_average_cramers_v`'s average;
the two columns are kept with their values so the statement can speak
about the contingency table of the contributing pair. -/
structure AvgPair where
  c1 : String × List String
  c2 : String × List String
  valueSq : F
deriving DecidableEq

/-- The pair loop of `compute_average_cramers_v` (src/app.py lines
219-246): columns with more than `10` distinct values are dropped, fewer
than two remaining columns aborts, each pair with a non-empty crosstab
gets `cramers_v = sqrt(chi2 / (n * (min(shape) - 1)))`, and exactly the
pairs with `not np.isnan(cramers_v)` are accumulated into
`total_cramers_v` and `valid_pairs`.  The function's return value is
`(Σ √v over this list) / length` with its interpretation label (`None`
when the list is empty), so this list is exactly the set of pairs
contributing to the average. -/
def computeAvgValids (df : List (String × List String)) : List AvgPair :=
  let cats := df.filter (fun c => c.2.dedup.length ≤ 10)
  if cats.length < 2 then []
  else
    (combinations2 cats).filterMap (fun pr =>
      let xs := pr.1.2
      let ys := pr.2.2
      if tblRows xs * tblCols ys = 0 then none
      else
        let v := cramersVsqApp xs ys
        if v.isNaN then none
        else some { c1 := pr.1, c2 := pr.2, valueSq := v })

/-- One record of `chi_square_tests`' result list (src/app.py lines
379-386); `valueSq` holds the squared Cramér's V. -/
structure ChiRec where
  var1 : String
  var2 : String
  valueSq : F
deriving DecidableEq

/-- Columns of the frame belonging to prefix group `k`
(src/app.py lines 361-366 and 406-411), in column order. -/
def groupColsIn (cols : List String) (k : String) : List String :=
  cols.filter (fun c => groupKeyOf c = k)

/-- `chi_square_tests` (src/app.py lines 351-394): group columns by
underscore prefix, cross-tabulate every pair of columns drawn from two
different groups, and return the records sorted descending by Cramér's V
(`sorted(results, key=lambda x: x['cramers_v'], reverse=True)`). -/
def chiSquareTests (df : List (String × List String)) : List ChiRec :=
  let cols := df.map (fun c => c.1)
  if cols.length < 2 then []
  else
    let keys := (cols.map groupKeyOf).dedup
    let recs := (combinations2 keys).map (fun gp =>
      (groupColsIn cols gp.1).map (fun c1 =>
        (groupColsIn cols gp.2).filterMap (fun c2 =>
          let xs := (df.lookup c1).getD []
          let ys := (df.lookup c2).getD []
          if tblRows xs * tblCols ys = 0 then none
          else some { var1 := c1, var2 := c2, valueSq := cramersVsqApp xs ys })))
    List.insertionSort (byKeyDesc ChiRec.valueSq) (recs.flatten.flatten)

/-- The multi-variable enumerator of `multi_variable_analysis`
(src/app.py lines 405-422): group columns by underscore prefix; for every
`r ∈ [2, #groups]` and every size-`r` combination of group keys, take the
cross product of the groups' column lists; discard any tuple whose
columns span fewer than two distinct groups (line 421). -/
def multiVarCombos (cols : List String) : List (List String) :=
  let keys := (cols.map groupKeyOf).dedup
  ((List.range' 2 (keys.length - 1)).map (fun r => combinationsLen r keys)).flatten
    |>.map (fun gs =>
      (listProd (gs.map (fun g => groupColsIn cols g))).filter
        (fun combo => 2 ≤ (combo.map groupKeyOf).dedup.length))
    |>.flatten

/-- Row-wise tuples of a list of equal-length columns: the joint key on
which `df.groupby(list(columns))` groups the first `k-1` columns. -/
def zipCols : List (List String) → List (List String)
  | [] => []
  | [c] => c.map (fun v => [v])
  | c :: cs => (c.zip (zipCols cs)).map (fun p => p.1 :: p.2)

/-- One record of `multi_variable_analysis`' result list (src/app.py
lines 437-443); `valueSq` holds the squared Cramér's V. -/
structure MultiRec where
  vars : List String
  valueSq : F
deriving DecidableEq

/-- `multi_variable_analysis` (src/app.py lines 396-451): for each
emitted combination, `df.groupby(list(columns)).size().unstack(fill_value=0)`
is the crosstab of the joint key of the first `k-1` columns against the
last column; combinations whose `min(shape) - 1` is `0` are skipped
(line 432); the rest get `chi2_contingency` (default `correction=True`)
and `cramers_v = sqrt(chi2 / (n * min_dim))`, and the records are
returned sorted descending by Cramér's V. -/
def multiVariableAnalysis (df : List (String × List String)) : List MultiRec :=
  let cols := df.map (fun c => c.1)
  if cols.length < 2 then []
  else
    let recs := (multiVarCombos cols).filterMap (fun combo =>
      let series := combo.map (fun c => (df.lookup c).getD [])
      let xs := zipCols series.dropLast
      let ys := (series.getLast?).getD []
      let minDim := min (tblRows xs) (tblCols ys) - 1
      if minDim = 0 then none
      else some { vars := combo,
                  valueSq := qdiv (chi2cont true xs ys) (nobs xs ys * (minDim : ℚ)) })
    List.insertionSort (byKeyDesc MultiRec.valueSq) recs

/-- One entry of `progress_store` (src/app.py).  The store holds Python
dicts whose key sets differ between lifecycle states, so every key is an
`Option` field: `none` means the key is absent from the dict.  `eta` is
doubly optional because the key can be present with value `None`
(the initial record).  Result-list entries are abstracted to their
numeric payloads (`ℚ`), which no claim inspects. -/
structure StoreRecord where
  status : String
  message : Option String
  progress : Option ℚ
  steps_completed : Option (List String)
  eta : Option (Option ℚ)
  start_time : Option ℚ
  average_cramers_v : Option (Option ℚ)
  logistic_regression_results : Option (List ℚ)
  decision_tree_results : Option (List ℚ)
  random_forest_results : Option (List ℚ)
  chi_square_results : Option (List ℚ)
  multi_variable_results : Option (List ℚ)
  error_logs : Option (List String)
deriving DecidableEq

/-- A record with the given status and no other keys. -/
def baseRec (st : String) : StoreRecord :=
  ⟨st, none, none, none, none, none, none, none, none, none, none, none, none⟩

/-- The fixed stage list of `process_data_task` (src/app.py lines 86-94). -/
def stageNames : List String :=
  ["Preprocessing Data",
   "Computing Average Cramér\x27s V",
   "Logistic Regression Analysis",
   "Decision Tree Analysis",
   "Random Forest Analysis",
   "Chi-Square Tests",
   "Multi-Variable Analysis"]

/-- The record created by `process_csv` at task submission
(src/app.py lines 64-70). -/
def initialRec (t0 : ℚ) : StoreRecord :=
  { baseRec "processing" with
    progress := some 0, steps_completed := some [], eta := some none,
    start_time := some t0 }

/-- The terminal success record (src/app.py lines 143-156). -/
def successRec (avg : Option ℚ) (lr dt rf chi mv : List ℚ)
    (logs : List String) : StoreRecord :=
  { baseRec "success" with
    progress := some 100, steps_completed := some stageNames,
    eta := some (some 0), average_cramers_v := some avg,
    logistic_regression_results := some lr,
    decision_tree_results := some dt,
    random_forest_results := some rf,
    chi_square_results := some chi,
    multi_variable_results := some mv,
    error_logs := some logs }

/-- The terminal error record (src/app.py lines 159-165). -/
def errorRec (m : String) (steps : List String) (logs : List String) : StoreRecord :=
  { baseRec "error" with
    message := some m, steps_completed := some steps, error_logs := some logs }

/-- `update_progress` (src/app.py lines 167-174): append the stage name
and set `progress = (current_step / total_steps) * 100` in one locked
mutation. -/
def updateProgress (name : String) (current total : ℕ) (r : StoreRecord) : StoreRecord :=
  { r with
    progress := some (((current : ℚ) / (total : ℚ)) * 100),
    steps_completed := some ((r.steps_completed.getD []) ++ [name]) }

/-- The successive store records produced by the `update_progress` calls
of `process_data_task`, which pass `current_step = k, k+1, ...` for the
remaining stage names. -/
def updFrom (total : ℕ) : ℕ → StoreRecord → List String → List StoreRecord
  | _, _, [] => []
  | k, r, nm :: rest =>
    let r2 := updateProgress nm k total r
    r2 :: updFrom total (k + 1) r2 rest

/-- The store records seen after each of the stage updates of one task:
`process_data_task` calls `update_progress(task_id, steps[i], i+1,
total_steps)` for `i = 0 .. total_steps - 1` (src/app.py lines 107-140),
starting from the submission record. -/
def progressTrace (t0 : ℚ) (names : List String) : List StoreRecord :=
  updFrom names.length 1 (initialRec t0) names

/-- `update_eta` (src/app.py lines 176-182): the value written to the
record's `eta` key, with `now - start_time = elapsed`. -/
def update_eta_val (now start : ℚ) (total current : ℕ) : ℚ :=
  let elapsed := now - start
  let avg_time_per_step := elapsed / (current : ℚ)
  let steps_remaining := (total : ℚ) - (current : ℚ)
  avg_time_per_step * steps_remaining

/-- `range(0, total_pairs, batch_size)` (src/src/backend/app2.py line
247): the batch start indices.  A zero step raises in Python; the model
returns the empty list for it. -/
def batchStarts (total bs : ℕ) : List ℕ :=
  List.range' 0 ((total + bs - 1) / bs) bs

/-- The ETA printed after the batch starting at index `i`
(src/src/backend/app2.py lines 258-262): `processed = min(i + bs,
total)`, `eta = (elapsed / processed) * remaining` (or `0` when nothing
was processed). -/
def app2EtaAfter (elapsed : ℚ) (total bs i : ℕ) : ℚ :=
  let processed := min (i + bs) total
  if 0 < processed then (elapsed / (processed : ℚ)) * ((total : ℚ) - (processed : ℚ))
  else 0

/-- The sequence of ETAs displayed by `process_batches_with_eta` under a
scripted clock: `t0` is `start_time` and `tau i` is the value of
`time.time()` observed after the batch starting at index `i`. -/
def app2EtaTrace (t0 : ℚ) (tau : ℕ → ℚ) (total bs : ℕ) : List ℚ :=
  (batchStarts total bs).map (fun i => app2EtaAfter (tau i - t0) total bs i)

/-- The request body read by `process_csv` (src/app.py lines 51-53):
`content.get('data')` and `content.get('selected_columns')`, `none` when
the key is missing.  Rows are JSON objects, modelled as key-value lists. -/
structure Content where
  data : Option (List (List (String × String)))
  selected_columns : Option (List String)

/-- The validation `if not data or not isinstance(data, list) or
len(data) == 0` (src/app.py line 55): truthiness failure of the dataset. -/
def badData (c : Content) : Bool :=
  match c.data with
  | none => true
  | some l => l.isEmpty

/-- The validation `if not selected_columns or not isinstance(...)`
(src/app.py line 58). -/
def badSel (c : Content) : Bool :=
  match c.selected_columns with
  | none => true
  | some l => l.isEmpty

/-- Outcomes of the opaque per-stage computations of
`process_data_task`.  The spec (§1) treats the stage bodies (pandas /
sklearn calls) as opaque functions the orchestrator runs; each field is
the outcome of one such body: `Except.error e` models the body raising
an exception with message `str(e) = e`, which the stage function's own
`try/except` converts into a log entry plus its neutral result.
`select` is the evaluation of `pd.DataFrame(data)[selected_columns]`
(src/app.py line 109), the only expression of the task body *not*
wrapped in a stage-local handler: its failure propagates to the outer
`except` of `process_data_task`. -/
structure Bodies where
  select : Except String Unit
  preprocessB : Except String Unit
  avgB : Except String (Option ℚ)
  logisticB : Except String (List ℚ)
  dtreeB : Except String (List ℚ)
  rforestB : Except String (List ℚ)
  chiB : Except String (List ℚ)
  multiB : Except String (List ℚ)

/-- The stage-local `try/except` shared by every analysis function
(e.g. src/app.py lines 253-256): an exception is appended to
`error_logs` as `msg(str(e))` and the stage returns its neutral value. -/
def stageRun {γ : Type} (logs : List String) (neutral : γ) (msg : String → String) :
    Except String γ → γ × List String
  | Except.ok a => (a, logs)
  | Except.error e => (neutral, logs ++ [msg e])

/-- `process_data_task` (src/app.py lines 80-165) run to its terminal
record.  If evaluating the column selection raises, the outer handler
writes the error record with whatever stages completed (only
"Preprocessing Data", whose `update_progress` ran first) and the logs
accumulated so far (none).  Otherwise all seven stages run, each
degrading to its neutral result on failure, and the success record is
written unconditionally. -/
def runTask (b : Bodies) : StoreRecord :=
  match b.select with
  | Except.error e => errorRec e ["Preprocessing Data"] []
  | Except.ok _ =>
    let s1 := stageRun [] () (fun e => "Error processing dataframe: " ++ e) b.preprocessB
    let s2 := stageRun s1.2 none
      (fun e => "Error computing average Cramér\x27s V: " ++ e) b.avgB
    let s3 := stageRun s2.2 []
      (fun e => "Error during logistic regression analysis: " ++ e ++ ".") b.logisticB
    let s4 := stageRun s3.2 []
      (fun e => "Error during decision tree analysis: " ++ e ++ ".") b.dtreeB
    let s5 := stageRun s4.2 []
      (fun e => "Error during random forest analysis: " ++ e ++ ".") b.rforestB
    let s6 := stageRun s5.2 []
      (fun e => "Error during chi-square tests: " ++ e ++ ".") b.chiB
    let s7 := stageRun s6.2 []
      (fun e => "Error during multi-variable analysis: " ++ e ++ ".") b.multiB
    successRec s2.1 s3.1 s4.1 s5.1 s6.1 s7.1 s7.2

/-- Result of a submission: a 400 rejection with no task created, or the
terminal record of the background task (the model runs the task to
completion). -/
inductive SubmitRes where
  | rejected : String → SubmitRes
  | accepted : StoreRecord → SubmitRes
deriving DecidableEq

/-- `process_csv` (src/app.py lines 47-78) composed with the background
task: input validation raises before any task is created; otherwise the
task runs to its terminal record. -/
def processCsvModel (c : Content) (b : Bodies) : SubmitRes :=
  if badData c then
    SubmitRes.rejected "Input data is empty or not properly formatted."
  else if badSel c then
    SubmitRes.rejected "Selected columns are missing or not in the correct format."
  else
    SubmitRes.accepted (runTask b)

/-- The body returned for an unknown task id by `get_progress`
(src/app.py line 189), alongside HTTP status 404. -/
def notFoundBody : StoreRecord :=
  { baseRec "error" with
    message := some "Invalid task ID.", steps_completed := some [] }

/-- The defensive normalization of `get_progress` (src/app.py lines
191-192): materialize a missing `steps_completed` key as `[]`. -/
def normalizeSteps (r : StoreRecord) : StoreRecord :=
  if r.steps_completed = none then { r with steps_completed := some [] } else r

/-- `get_progress` (src/app.py lines 184-193): HTTP status and body. -/
def getProgressModel (store : List (String × StoreRecord)) (tid : String) :
    ℕ × StoreRecord :=
  match store.lookup tid with
  | none => (404, notFoundBody)
  | some r => (200, normalizeSteps r)

/-- The records a task can ever store (src/app.py): the submission
record and its `update_progress`/`update_eta` successors all carry
status `"processing"`; the only terminal writes are `successRec` and
`errorRec`. -/
inductive ReachableRec : StoreRecord → Prop where
  | processing (r : StoreRecord) : r.status = "processing" → ReachableRec r
  | success (avg : Option ℚ) (lr dt rf chi mv : List ℚ) (logs : List String) :
      ReachableRec (successRec avg lr dt rf chi mv logs)
  | errored (m : String) (steps : List String) (logs : List String) :
      ReachableRec (errorRec m steps logs)

/-! ## Helper lemmas -/

theorem comb2_length {α : Type} (xs : List α) :
    (combinations2 xs).length = Nat.choose xs.length 2 := by
  induction xs with
  | nil => rfl
  | cons x xs ih =>
    simp [combinations2, ih, Nat.choose_succ_succ, Nat.choose_one_right, Nat.add_comm]

theorem comb2_mem {α : Type} {xs : List α} {p : α × α} (h : p ∈ combinations2 xs) :
    p.1 ∈ xs ∧ p.2 ∈ xs := by
  induction xs with
  | nil => simp [combinations2] at h
  | cons x xs ih =>
    simp only [combinations2, List.mem_append, List.mem_map] at h
    rcases h with ⟨y, hy, rfl⟩ | h
    · exact ⟨List.mem_cons_self _ _, List.mem_cons_of_mem _ hy⟩
    · exact ⟨List.mem_cons_of_mem _ (ih h).1, List.mem_cons_of_mem _ (ih h).2⟩

theorem comb2_ne {α : Type} {xs : List α} (hnd : xs.Nodup) :
    ∀ p ∈ combinations2 xs, p.1 ≠ p.2 := by
  induction xs with
  | nil => intro p hp; simp [combinations2] at hp
  | cons x xs ih =>
    rcases List.nodup_cons.mp hnd with ⟨hx, hxs⟩
    intro p hp
    simp only [combinations2, List.mem_append, List.mem_map] at hp
    rcases hp with ⟨y, hy, rfl⟩ | hp
    · intro h
      apply hx
      have h1 : x = y := h
      exact h1 ▸ hy
    · exact ih hxs p hp

theorem comb2_pairwise {α : Type} {xs : List α} (hnd : xs.Nodup) :
    (combinations2 xs).Pairwise (fun p q => p ≠ q ∧ p ≠ q.swap) := by
  induction xs with
  | nil => exact List.Pairwise.nil
  | cons x xs ih =>
    rcases List.nodup_cons.mp hnd with ⟨hx, hxs⟩
    rw [combinations2, List.pairwise_append]
    refine ⟨?_, ih hxs, ?_⟩
    · refine List.Pairwise.map (fun y => (x, y)) ?_ hxs
      intro a b hab
      refine ⟨fun h => hab (congrArg Prod.snd h), fun h => hab ?_⟩
      have h1 : x = b := congrArg Prod.fst h
      have h2 : a = x := congrArg Prod.snd h
      exact h2.trans h1
    · intro p hp q hq
      rcases List.mem_map.mp hp with ⟨y, _, rfl⟩
      have hq1 := (comb2_mem hq).1
      have hq2 := (comb2_mem hq).2
      constructor
      · intro h
        apply hx
        have h1 : x = q.1 := congrArg Prod.fst h
        exact h1 ▸ hq1
      · intro h
        apply hx
        have h1 : x = q.2 := congrArg Prod.fst h
        exact h1 ▸ hq2

theorem exists_two_of_dedup {α : Type} [DecidableEq α] {l : List α}
    (h : 2 ≤ l.dedup.length) : ∃ a ∈ l, ∃ b ∈ l, a ≠ b := by
  match hd : l.dedup, h with
  | a :: b :: t, _ =>
    have hnd : (a :: b :: t).Nodup := hd ▸ l.nodup_dedup
    have hab : a ≠ b := by
      intro hab
      exact (List.nodup_cons.mp hnd).1 (hab ▸ List.mem_cons_self _ _)
    have ha : a ∈ l := List.mem_dedup.mp (hd ▸ List.mem_cons_self _ _)
    have hb : b ∈ l := List.mem_dedup.mp
      (hd ▸ List.mem_cons_of_mem _ (List.mem_cons_self _ _))
    exact ⟨a, ha, b, hb, hab⟩

theorem processLoop_eq_map {α β : Type} {bs : ℕ} (hbs : 0 < bs) (f : α → β) :
    ∀ l : List α, processLoop bs f l = l.map f := by
  have H : ∀ n (l : List α), l.length ≤ n → processLoop bs f l = l.map f := by
    intro n
    induction n with
    | zero =>
      intro l hl
      have : l = [] := List.length_eq_zero.mp (Nat.le_zero.mp hl)
      subst this
      rw [processLoop]; simp
    | succ n ih =>
      intro l hl
      rw [processLoop]
      split
      · rename_i h
        rcases h with h | h
        · rw [List.isEmpty_iff.mp h]; rfl
        · exact absurd h (Nat.pos_iff_ne_zero.mp hbs)
      · rw [ih (l.drop bs) (by simp only [List.length_drop]; omega)]
        rw [← List.map_append, List.take_append_drop]
  exact fun l => H l.length l le_rfl

/-! ## Claims -/

/-- C2: the qualitative interpretation of a strength value follows the
five fixed bands of `interpret_cramers_v` exactly (cut points 0.1, 0.3,
0.5, 0.7), the five sample points land in the documented bands, and the
label is stepwise-monotonic in the strength. -/
theorem C2_interpret_bands (v : ℚ) :
    (v < 1/10 → interpret_cramers_v v = "Very weak") ∧
    (1/10 ≤ v ∧ v < 3/10 → interpret_cramers_v v = "Weak") ∧
    (3/10 ≤ v ∧ v < 1/2 → interpret_cramers_v v = "Moderate") ∧
    (1/2 ≤ v ∧ v < 7/10 → interpret_cramers_v v = "Strong") ∧
    (7/10 ≤ v → interpret_cramers_v v = "Very strong") ∧
    interpret_cramers_v (5/100) = "Very weak" ∧
    interpret_cramers_v (25/100) = "Weak" ∧
    interpret_cramers_v (45/100) = "Moderate" ∧
    interpret_cramers_v (65/100) = "Strong" ∧
    interpret_cramers_v (85/100) = "Very strong" ∧
    (∀ w : ℚ, v ≤ w →
      labelRank (interpret_cramers_v v) ≤ labelRank (interpret_cramers_v w)) := by
  refine ⟨?_, ?_, ?_, ?_, ?_, by with_unfolding_all decide, by with_unfolding_all decide,
    by with_unfolding_all decide, by with_unfolding_all decide, by with_unfolding_all decide, ?_⟩
  · intro h; unfold interpret_cramers_v; split_ifs <;> first | rfl | linarith
  · rintro ⟨h1, h2⟩; unfold interpret_cramers_v; split_ifs <;> first | rfl | linarith
  · rintro ⟨h1, h2⟩; unfold interpret_cramers_v; split_ifs <;> first | rfl | linarith
  · rintro ⟨h1, h2⟩; unfold interpret_cramers_v; split_ifs <;> first | rfl | linarith
  · intro h; unfold interpret_cramers_v; split_ifs <;> first | rfl | linarith
  · intro w hw
    unfold interpret_cramers_v
    split_ifs <;> first | decide | (exfalso; linarith)

/-- C2 witness: the theorem evaluated at the concrete strength 0.25. -/
theorem C2_interpret_bands_witness :
    ((1:ℚ)/10 ≤ 25/100 ∧ (25:ℚ)/100 < 3/10) ∧
    interpret_cramers_v (25/100) = "Weak" :=
  ⟨⟨by with_unfolding_all decide, by with_unfolding_all decide⟩,
    (C2_interpret_bands (25/100)).2.1
      ⟨by with_unfolding_all decide, by with_unfolding_all decide⟩⟩

/-- C3: for `n` distinct selected columns the pairwise enumerator emits
exactly `n * (n-1) / 2` work items, none of which is a self-pair, and no
two of which coincide as unordered pairs (no duplicates even up to
swapping). -/
theorem C3_pairwise_enumerator (xs : List String) (h : xs.Nodup) :
    (combinations2 xs).length = xs.length * (xs.length - 1) / 2 ∧
    (∀ p ∈ combinations2 xs, p.1 ≠ p.2) ∧
    (combinations2 xs).Pairwise (fun p q => p ≠ q ∧ p ≠ q.swap) := by
  refine ⟨?_, comb2_ne h, comb2_pairwise h⟩
  rw [comb2_length, Nat.choose_two_right]

/-- C3 witness: the enumerator on three distinct columns. -/
theorem C3_pairwise_enumerator_witness :
    (combinations2 ["A", "B", "C"]).length = 3 * (3 - 1) / 2 ∧
    (∀ p ∈ combinations2 ["A", "B", "C"], p.1 ≠ p.2) ∧
    (combinations2 ["A", "B", "C"]).Pairwise (fun p q => p ≠ q ∧ p ≠ q.swap) :=
  C3_pairwise_enumerator ["A", "B", "C"] (by decide)

/-- C4: every combination emitted by the multi-variable enumerator draws
its columns from at least two distinct prefix groups; no emitted
combination lies entirely in one group. -/
theorem C4_multivar_groups (cols combo : List String)
    (h : combo ∈ multiVarCombos cols) :
    2 ≤ (combo.map groupKeyOf).dedup.length ∧
    ∃ c1 ∈ combo, ∃ c2 ∈ combo, groupKeyOf c1 ≠ groupKeyOf c2 := by
  have h2 : 2 ≤ (combo.map groupKeyOf).dedup.length := by
    unfold multiVarCombos at h
    rcases List.mem_flatten.mp h with ⟨l, hl, hcombo⟩
    rcases List.mem_map.mp hl with ⟨gs, _, rfl⟩
    exact (List.mem_filter.mp hcombo).2 |> of_decide_eq_true
  refine ⟨h2, ?_⟩
  rcases exists_two_of_dedup h2 with ⟨a, ha, b, hb, hab⟩
  rcases List.mem_map.mp ha with ⟨c1, hc1, rfl⟩
  rcases List.mem_map.mp hb with ⟨c2, hc2, rfl⟩
  exact ⟨c1, hc1, c2, hc2, hab⟩

/-- C4 witness: the enumerator on two columns in two groups emits the
cross-group combination, which indeed spans two groups. -/
theorem C4_multivar_groups_witness :
    (["a_x", "b_z"] : List String) ∈ multiVarCombos ["a_x", "b_z"] ∧
    2 ≤ ((["a_x", "b_z"] : List String).map groupKeyOf).dedup.length :=
  ⟨by decide, (C4_multivar_groups ["a_x", "b_z"] ["a_x", "b_z"] (by decide)).1⟩

theorem updFrom_length (total k : ℕ) (r : StoreRecord) (l : List String) :
    (updFrom total k r l).length = l.length := by
  induction l generalizing k r with
  | nil => rfl
  | cons nm rest ih => simp [updFrom, ih]

theorem updFrom_get (total : ℕ) (l : List String) :
    ∀ (k : ℕ) (r : StoreRecord) (i : ℕ) (h : i < (updFrom total k r l).length),
      ((updFrom total k r l).get ⟨i, h⟩).progress
          = some (((k + i : ℕ) : ℚ) / (total : ℚ) * 100) ∧
      ((updFrom total k r l).get ⟨i, h⟩).steps_completed
          = some (r.steps_completed.getD [] ++ l.take (i + 1)) := by
  induction l with
  | nil => intro k r i h; simp [updFrom] at h
  | cons nm rest ih =>
    intro k r i h
    match i with
    | 0 =>
      constructor
      · simp [updFrom, updateProgress]
      · simp [updFrom, updateProgress]
    | Nat.succ i =>
      have h' : i < (updFrom total (k + 1) (updateProgress nm k total r) rest).length := by
        have := h; simp only [updFrom, List.length_cons] at this; omega
      have IH := ih (k + 1) (updateProgress nm k total r) i h'
      have hget : (updFrom total k r (nm :: rest)).get ⟨i + 1, h⟩
          = (updFrom total (k + 1) (updateProgress nm k total r) rest).get ⟨i, h'⟩ := rfl
      constructor
      · rw [hget, IH.1]
        congr 2
        push_cast
        ring
      · rw [hget, IH.2]
        simp [updateProgress, List.take_succ_cons]

/-- C5: across the stage updates of one task, the stored progress always
equals exactly `100 * completed_stages / total_stages`, the completed
list after the `i`-th update is the first `i+1` stage names (so it is
append-only and ordered), and progress is monotonically non-decreasing. -/
theorem C5_progress_invariant (t0 : ℚ) (names : List String) (i j : ℕ)
    (hi : i < (progressTrace t0 names).length)
    (hj : j < (progressTrace t0 names).length) (hij : i ≤ j) :
    (((progressTrace t0 names).get ⟨i, hi⟩).progress
      = some (100 * ((((progressTrace t0 names).get ⟨i, hi⟩).steps_completed.getD []).length : ℚ)
          / (names.length : ℚ))) ∧
    ((progressTrace t0 names).get ⟨i, hi⟩).steps_completed = some (names.take (i + 1)) ∧
    (((progressTrace t0 names).get ⟨i, hi⟩).progress.getD 0
      ≤ ((progressTrace t0 names).get ⟨j, hj⟩).progress.getD 0) ∧
    (∃ t, ((progressTrace t0 names).get ⟨j, hj⟩).steps_completed.getD []
        = (((progressTrace t0 names).get ⟨i, hi⟩).steps_completed.getD []) ++ t) := by
  have hlen : (progressTrace t0 names).length = names.length :=
    updFrom_length names.length 1 (initialRec t0) names
  have hin : i < names.length := hlen ▸ hi
  have hjn : j < names.length := hlen ▸ hj
  have Hi : ((progressTrace t0 names).get ⟨i, hi⟩).progress
        = some (((1 + i : ℕ) : ℚ) / (names.length : ℚ) * 100) ∧
      ((progressTrace t0 names).get ⟨i, hi⟩).steps_completed
        = some ((initialRec t0).steps_completed.getD [] ++ names.take (i + 1)) :=
    updFrom_get names.length names 1 (initialRec t0) i hi
  have Hj : ((progressTrace t0 names).get ⟨j, hj⟩).progress
        = some (((1 + j : ℕ) : ℚ) / (names.length : ℚ) * 100) ∧
      ((progressTrace t0 names).get ⟨j, hj⟩).steps_completed
        = some ((initialRec t0).steps_completed.getD [] ++ names.take (j + 1)) :=
    updFrom_get names.length names 1 (initialRec t0) j hj
  have hstepsI : ((progressTrace t0 names).get ⟨i, hi⟩).steps_completed
      = some (names.take (i + 1)) := by
    have := Hi.2
    simpa [initialRec, baseRec] using this
  have hstepsJ : ((progressTrace t0 names).get ⟨j, hj⟩).steps_completed
      = some (names.take (j + 1)) := by
    have := Hj.2
    simpa [initialRec, baseRec] using this
  have hlenTakeI : (names.take (i + 1)).length = i + 1 := by
    simp [List.length_take]; omega
  have hlenTakeJ : (names.take (j + 1)).length = j + 1 := by
    simp [List.length_take]; omega
  have hnpos : (0 : ℚ) < (names.length : ℚ) := by
    exact_mod_cast Nat.pos_of_ne_zero (by omega)
  refine ⟨?_, hstepsI, ?_, ?_⟩
  · rw [Hi.1, hstepsI]
    simp only [Option.getD_some, hlenTakeI]
    congr 1
    push_cast
    ring
  · rw [Hi.1, Hj.1]
    simp only [Option.getD_some]
    have hle : ((1 + i : ℕ) : ℚ) ≤ ((1 + j : ℕ) : ℚ) := by
      have : (1 + i) ≤ (1 + j) := by omega
      exact_mod_cast this
    have h1 : ((1 + i : ℕ) : ℚ) / (names.length : ℚ)
        ≤ ((1 + j : ℕ) : ℚ) / (names.length : ℚ) :=
      (div_le_div_right hnpos).mpr hle
    exact mul_le_mul_of_nonneg_right h1 (by norm_num)
  · rw [hstepsI, hstepsJ]
    refine ⟨(names.drop (i + 1)).take (j - i), ?_⟩
    simp only [Option.getD_some]
    rw [← List.take_add]
    congr 1
    omega

/-- C5 witness: the third and sixth updates of the seven-stage task. -/
theorem C5_progress_invariant_witness :
    ((progressTrace 0 stageNames).get ⟨2, by with_unfolding_all decide⟩).steps_completed
      = some (stageNames.take 3) ∧
    (((progressTrace 0 stageNames).get ⟨2, by with_unfolding_all decide⟩).progress.getD 0
      ≤ ((progressTrace 0 stageNames).get ⟨5, by with_unfolding_all decide⟩).progress.getD 0) :=
  ⟨(C5_progress_invariant 0 stageNames 2 5 (by with_unfolding_all decide)
      (by with_unfolding_all decide) (by omega)).2.1,
   (C5_progress_invariant 0 stageNames 2 5 (by with_unfolding_all decide)
      (by with_unfolding_all decide) (by omega)).2.2.1⟩

theorem batchStarts_get (total bs k : ℕ) (h : k < (batchStarts total bs).length) :
    (batchStarts total bs).get ⟨k, h⟩ = k * bs := by
  simp only [batchStarts, List.get_eq_getElem, List.getElem_range']
  ring

theorem batchStarts_lt (total bs k : ℕ) (hbs : 0 < bs)
    (h : k < (batchStarts total bs).length) : k * bs < total := by
  simp only [batchStarts, List.length_range'] at h
  have h1 : k + 1 ≤ (total + bs - 1) / bs := h
  have h2 : (k + 1) * bs ≤ total + bs - 1 := (Nat.le_div_iff_mul_le hbs).mp h1
  have h3 : (k + 1) * bs = k * bs + bs := by ring
  omega

/-- C6: the ETA recomputed after each batch is exactly
`(elapsed / items_processed) * items_remaining` with
`processed = min(batch_end, total)` — a simple cumulative-throughput
estimator — both in the batch scheduler and in `update_eta`; in
particular, after processing 5 of 20 items in 10 seconds the displayed
ETA is 30 seconds. -/
theorem C6_eta_formula (t0 : ℚ) (tau : ℕ → ℚ) (total bs k : ℕ)
    (hbs : 0 < bs) (hk : k < (app2EtaTrace t0 tau total bs).length) :
    ((app2EtaTrace t0 tau total bs).get ⟨k, hk⟩
      = ((tau (k * bs) - t0) / ((min ((k + 1) * bs) total : ℕ) : ℚ))
          * ((total : ℚ) - ((min ((k + 1) * bs) total : ℕ) : ℚ))) ∧
    (∀ (now start : ℚ) (tot cur : ℕ), update_eta_val now start tot cur
      = ((now - start) / (cur : ℚ)) * ((tot : ℚ) - (cur : ℚ))) ∧
    (app2EtaTrace 0 (fun _ => 10) 20 5).head? = some 30 ∧
    update_eta_val 10 0 20 5 = 30 := by
  have hkb : k < (batchStarts total bs).length := by
    simpa [app2EtaTrace] using hk
  have hlt : k * bs < total := batchStarts_lt total bs k hbs hkb
  refine ⟨?_, fun _ _ _ _ => rfl, by with_unfolding_all decide, by with_unfolding_all decide⟩
  have hget : (app2EtaTrace t0 tau total bs).get ⟨k, hk⟩
      = app2EtaAfter (tau ((batchStarts total bs).get ⟨k, hkb⟩) - t0) total bs
          ((batchStarts total bs).get ⟨k, hkb⟩) := by
    simp [app2EtaTrace, List.get_eq_getElem, List.getElem_map]
  rw [hget, batchStarts_get total bs k hkb]
  unfold app2EtaAfter
  have hproc : 0 < min (k * bs + bs) total := by omega
  rw [if_pos hproc]
  have : (k + 1) * bs = k * bs + bs := by ring
  rw [this]

/-- C6 witness: the first batch of 5 out of 20 items under a clock that
has advanced 10 seconds: processed 5, remaining 15, ETA 30. -/
theorem C6_eta_formula_witness :
    ((app2EtaTrace 0 (fun _ => 10) 20 5).get ⟨0, by with_unfolding_all decide⟩
      = (((10 : ℚ) - 0) / ((min ((0 + 1) * 5) 20 : ℕ) : ℚ))
          * ((20 : ℚ) - ((min ((0 + 1) * 5) 20 : ℕ) : ℚ))) ∧
    (app2EtaTrace 0 (fun _ => 10) 20 5).head? = some 30 :=
  ⟨(C6_eta_formula 0 (fun _ => 10) 20 5 0 (by decide)
      (by with_unfolding_all decide)).1,
   (C6_eta_formula 0 (fun _ => 10) 20 5 0 (by decide)
      (by with_unfolding_all decide)).2.2.1⟩

/-- C8: polling an unknown task id yields the distinct 404 not-found
response, whose body differs from every record a task can ever store
(and from every body the endpoint returns for a stored record), while a
known id returns the stored record (with the `steps_completed` key
defensively materialized). -/
theorem C8_unknown_task (store : List (String × StoreRecord)) (tid : String) :
    (store.lookup tid = none → getProgressModel store tid = (404, notFoundBody)) ∧
    (∀ r, store.lookup tid = some r →
      getProgressModel store tid = (200, normalizeSteps r)) ∧
    (∀ r, ReachableRec r → notFoundBody ≠ r ∧ notFoundBody ≠ normalizeSteps r) := by
  refine ⟨?_, ?_, ?_⟩
  · intro h; simp [getProgressModel, h]
  · intro r h; simp [getProgressModel, h]
  · intro r h
    have hns : (normalizeSteps r).status = r.status := by
      unfold normalizeSteps; split <;> rfl
    have hne : (normalizeSteps r).error_logs = r.error_logs := by
      unfold normalizeSteps; split <;> rfl
    cases h with
    | processing r hst =>
      constructor
      · intro he
        have := congrArg StoreRecord.status he
        rw [hst] at this
        exact absurd this (by decide)
      · intro he
        have := congrArg StoreRecord.status he
        rw [hns, hst] at this
        exact absurd this (by decide)
    | success avg lr dt rf chi mv logs =>
      have hs : (successRec avg lr dt rf chi mv logs).status = "success" := rfl
      constructor
      · intro he
        have := congrArg StoreRecord.status he
        rw [hs] at this
        exact absurd this (by decide)
      · intro he
        have := congrArg StoreRecord.status he
        rw [hns, hs] at this
        exact absurd this (by decide)
    | errored m steps logs =>
      constructor
      · intro he
        have := congrArg StoreRecord.error_logs he
        exact Option.noConfusion this
      · intro he
        have := congrArg StoreRecord.error_logs he
        rw [hne] at this
        exact Option.noConfusion this

/-- C8 witness: a store holding one terminal error record, polled with an
unknown id. -/
theorem C8_unknown_task_witness :
    getProgressModel [("t", errorRec "boom" [] [])] "u" = (404, notFoundBody) ∧
    notFoundBody ≠ errorRec "boom" [] [] :=
  ⟨(C8_unknown_task [("t", errorRec "boom" [] [])] "u").1 rfl,
   ((C8_unknown_task [("t", errorRec "boom" [] [])] "u").2.2 _
      (ReachableRec.errored "boom" [] [])).1⟩

/-- C10 (implicit): whenever the task body runs without an uncaught
exception (the column selection evaluates), the terminal record has
status `"success"`, progress exactly 100, eta exactly 0 and the full
seven-stage completed list — for *every* combination of stage outcomes,
so stage-local failures are invisible in these four fields. -/
theorem C10_terminal_success (b : Bodies) (h : b.select = Except.ok ()) :
    (runTask b).status = "success" ∧
    (runTask b).progress = some 100 ∧
    (runTask b).eta = some (some 0) ∧
    (runTask b).steps_completed = some stageNames := by
  obtain ⟨sel, pre, avg, lg, dt, rf, ch, mu⟩ := b
  cases h
  exact ⟨rfl, rfl, rfl, rfl⟩

/-- C10 witness: a run in which every analytical stage fails still ends
with status success, progress 100, eta 0 and all seven stages listed. -/
theorem C10_terminal_success_witness :
    (runTask ⟨Except.ok (), Except.error "p", Except.error "a", Except.error "l",
        Except.error "d", Except.error "r", Except.error "c", Except.error "m"⟩).status
      = "success" ∧
    (runTask ⟨Except.ok (), Except.error "p", Except.error "a", Except.error "l",
        Except.error "d", Except.error "r", Except.error "c", Except.error "m"⟩).progress
      = some 100 ∧
    (runTask ⟨Except.ok (), Except.error "p", Except.error "a", Except.error "l",
        Except.error "d", Except.error "r", Except.error "c", Except.error "m"⟩).eta
      = some (some 0) ∧
    (runTask ⟨Except.ok (), Except.error "p", Except.error "a", Except.error "l",
        Except.error "d", Except.error "r", Except.error "c", Except.error "m"⟩).steps_completed
      = some stageNames :=
  C10_terminal_success _ rfl

theorem stageRun_mem {γ : Type} {a : String} {logs : List String} (neutral : γ)
    (msg : String → String) (x : Except String γ) (h : a ∈ logs) :
    a ∈ (stageRun logs neutral msg x).2 := by
  cases x with
  | ok v => exact h
  | error e => exact List.mem_append_left _ h

/-- C7: the pipeline's two-tier failure policy.  (i) An input-validation
failure (missing/empty dataset or column selection) is rejected before
any task is created, so no stage runs.  (ii) If the task body starts
(the column selection evaluates), a failure in any analytical stage only
adds its message to the error log and leaves that stage's neutral result
(`None` for the average, `[]` for the result lists); all later stages
still run and the task terminates with status `"success"`.  (iii) Only a
failure outside the stage-local handlers (the selection expression)
yields a terminal error record. -/
theorem C7_failure_policy (c : Content) (b : Bodies) :
    ((badData c = true ∨ badSel c = true) →
      ∃ m, processCsvModel c b = SubmitRes.rejected m) ∧
    (b.select = Except.ok () →
      (runTask b).status = "success" ∧
      (∀ e, b.preprocessB = Except.error e →
        ("Error processing dataframe: " ++ e) ∈ (runTask b).error_logs.getD []) ∧
      (∀ e, b.avgB = Except.error e →
        (runTask b).average_cramers_v = some none ∧
        ("Error computing average Cramér\x27s V: " ++ e)
          ∈ (runTask b).error_logs.getD []) ∧
      (∀ e, b.logisticB = Except.error e →
        (runTask b).logistic_regression_results = some [] ∧
        ("Error during logistic regression analysis: " ++ e ++ ".")
          ∈ (runTask b).error_logs.getD []) ∧
      (∀ e, b.dtreeB = Except.error e →
        (runTask b).decision_tree_results = some [] ∧
        ("Error during decision tree analysis: " ++ e ++ ".")
          ∈ (runTask b).error_logs.getD []) ∧
      (∀ e, b.rforestB = Except.error e →
        (runTask b).random_forest_results = some [] ∧
        ("Error during random forest analysis: " ++ e ++ ".")
          ∈ (runTask b).error_logs.getD []) ∧
      (∀ e, b.chiB = Except.error e →
        (runTask b).chi_square_results = some [] ∧
        ("Error during chi-square tests: " ++ e ++ ".")
          ∈ (runTask b).error_logs.getD []) ∧
      (∀ e, b.multiB = Except.error e →
        (runTask b).multi_variable_results = some [] ∧
        ("Error during multi-variable analysis: " ++ e ++ ".")
          ∈ (runTask b).error_logs.getD [])) ∧
    (∀ e, b.select = Except.error e →
      runTask b = errorRec e ["Preprocessing Data"] []) := by
  refine ⟨?_, ?_, ?_⟩
  · intro h
    unfold processCsvModel
    split
    · exact ⟨_, rfl⟩
    · split
      · exact ⟨_, rfl⟩
      · rename_i h1 h2
        rcases h with h | h
        · exact absurd h h1
        · exact absurd h h2
  · intro hsel
    obtain ⟨sel, pre, avg, lg, dt, rf, ch, mu⟩ := b
    cases hsel
    refine ⟨rfl, ?_, ?_, ?_, ?_, ?_, ?_, ?_⟩
    · rintro e rfl
      cases avg <;> cases lg <;> cases dt <;> cases rf <;> cases ch <;> cases mu <;>
        simp [runTask, stageRun, successRec, baseRec]
    · rintro e rfl
      refine ⟨rfl, ?_⟩
      cases pre <;> cases lg <;> cases dt <;> cases rf <;> cases ch <;> cases mu <;>
        simp [runTask, stageRun, successRec, baseRec]
    · rintro e rfl
      refine ⟨rfl, ?_⟩
      cases pre <;> cases avg <;> cases dt <;> cases rf <;> cases ch <;> cases mu <;>
        simp [runTask, stageRun, successRec, baseRec]
    · rintro e rfl
      refine ⟨rfl, ?_⟩
      cases pre <;> cases avg <;> cases lg <;> cases rf <;> cases ch <;> cases mu <;>
        simp [runTask, stageRun, successRec, baseRec]
    · rintro e rfl
      refine ⟨rfl, ?_⟩
      cases pre <;> cases avg <;> cases lg <;> cases dt <;> cases ch <;> cases mu <;>
        simp [runTask, stageRun, successRec, baseRec]
    · rintro e rfl
      refine ⟨rfl, ?_⟩
      cases pre <;> cases avg <;> cases lg <;> cases dt <;> cases rf <;> cases mu <;>
        simp [runTask, stageRun, successRec, baseRec]
    · rintro e rfl
      refine ⟨rfl, ?_⟩
      cases pre <;> cases avg <;> cases lg <;> cases dt <;> cases rf <;> cases ch <;>
        simp [runTask, stageRun, successRec, baseRec]
  · intro e he
    obtain ⟨sel, pre, avg, lg, dt, rf, ch, mu⟩ := b
    cases he
    rfl

/-- C7 witness: a request with no data is rejected with no task, and a
run whose average stage fails still succeeds with the failure logged and
the average left `None`. -/
theorem C7_failure_policy_witness :
    (∃ m, processCsvModel ⟨none, none⟩
        ⟨Except.ok (), Except.ok (), Except.ok none, Except.ok [], Except.ok [],
          Except.ok [], Except.ok [], Except.ok []⟩ = SubmitRes.rejected m) ∧
    ((runTask ⟨Except.ok (), Except.ok (), Except.error "boom", Except.ok [],
        Except.ok [], Except.ok [], Except.ok [], Except.ok []⟩).average_cramers_v
      = some none ∧
      ("Error computing average Cramér\x27s V: " ++ "boom")
        ∈ (runTask ⟨Except.ok (), Except.ok (), Except.error "boom", Except.ok [],
            Except.ok [], Except.ok [], Except.ok [], Except.ok []⟩).error_logs.getD []) :=
  ⟨(C7_failure_policy ⟨none, none⟩ _).1 (Or.inl rfl),
   ((C7_failure_policy ⟨none, none⟩
      ⟨Except.ok (), Except.ok (), Except.error "boom", Except.ok [], Except.ok [],
        Except.ok [], Except.ok [], Except.ok []⟩).2.1 rfl).2.2.1 "boom" rfl⟩

theorem cramersVsqApp_degenerate {α β : Type} [DecidableEq α] [DecidableEq β]
    (xs : List α) (ys : List β) (h : min (tblRows xs) (tblCols ys) = 1) :
    (cramersVsqApp xs ys).isNaN = true := by
  have hdof : (tblRows xs - 1) * (tblCols ys - 1) = 0 := by
    have h1 : tblRows xs = 1 ∨ tblCols ys = 1 := by omega
    rcases h1 with h1 | h1 <;> simp [h1]
  have hchi : chi2cont true xs ys = 0 := by
    unfold chi2cont
    simp [hdof]
  have hm : (min ((tblRows xs : ℚ)) ((tblCols ys : ℚ))) = 1 := by
    rw [← Nat.cast_min, h]
    norm_num
  unfold cramersVsqApp
  rw [hchi, hm]
  norm_num [qdiv, F.isNaN]

theorem calcValueSq_degenerate (xs ys : List String)
    (h : min (tblRows xs) (tblCols ys) ≤ 1) : calcValueSq xs ys = F.num 0 := by
  unfold calcValueSq
  rw [if_pos]
  have : ((min (tblRows xs) (tblCols ys) : ℕ) : ℤ) ≤ 1 := by exact_mod_cast h
  omega

/-- C1 (amended): a degenerate pair is excluded from the average only on
the `compute_average_cramers_v` path — every pair contributing to its
average has `min(rows, cols) ≥ 2` (a degenerate table makes the strength
`NaN`, which the filter drops).  On the `process_pair` /
`process_batches_with_eta` path, however, a degenerate pair yields the
numeric value `0`, which passes the `not None and not isnan` filter and
is therefore counted in `valid_pairs` and contributes `0` to the
average. -/
theorem C1_degenerate_amended :
    (∀ df : List (String × List String), ∀ p ∈ computeAvgValids df,
      2 ≤ min (tblRows p.c1.2) (tblCols p.c2.2)) ∧
    (∀ (ncea : String → String) (data : List (String × List String))
        (sel : List String) (bs : ℕ) (c1 c2 : String),
      0 < bs → 2 ≤ sel.length → (c1, c2) ∈ combinations2 sel →
      c1 ≠ "NCEA Results" → c2 ≠ "NCEA Results" →
      min (tblRows ((data.lookup c1).getD []))
          (tblCols ((data.lookup c2).getD [])) ≤ 1 →
      (processPair ncea data c1 c2).value = F.num 0 ∧
      processPair ncea data c1 c2 ∈ exValidRecs (processBatches ncea data sel bs)) := by
  constructor
  · intro df p hp
    simp only [computeAvgValids] at hp
    split at hp
    · simp at hp
    · rcases List.mem_filterMap.mp hp with ⟨pr, _, heq⟩
      split_ifs at heq with hsz hnan
      · have hpr : p = { c1 := pr.1, c2 := pr.2, valueSq := cramersVsqApp pr.1.2 pr.2.2 } :=
          (Option.some.inj heq).symm
        subst hpr
        show 2 ≤ min (tblRows pr.1.2) (tblCols pr.2.2)
        have hr1 : 1 ≤ tblRows pr.1.2 := by
          by_contra hc
          apply hsz
          have : tblRows pr.1.2 = 0 := by omega
          simp [this]
        have hc1 : 1 ≤ tblCols pr.2.2 := by
          by_contra hc
          apply hsz
          have : tblCols pr.2.2 = 0 := by omega
          simp [this]
        by_contra hlt
        have hmin : min (tblRows pr.1.2) (tblCols pr.2.2) = 1 := by omega
        exact hnan (cramersVsqApp_degenerate pr.1.2 pr.2.2 hmin)
  · intro ncea data sel bs c1 c2 hbs hlen hmem hn1 hn2 hdeg
    have hval : (processPair ncea data c1 c2).value = F.num 0 := by
      unfold processPair
      rw [if_neg (by simp [hn1, hn2])]
      exact calcValueSq_degenerate _ _ hdeg
    refine ⟨hval, ?_⟩
    simp only [processBatches]
    rw [if_neg (by omega)]
    simp only [exValidRecs]
    rw [processLoop_eq_map hbs]
    apply List.mem_filter.mpr
    constructor
    · exact List.mem_map.mpr ⟨(c1, c2), hmem, rfl⟩
    · simp [hval, F.isNaN]

/-- C1 counterexample: column `A` is constant, so the contingency table
of the single pair is `1 × 2` (degenerate), yet `process_batches_with_eta`
counts it as a valid pair with value `0`: the pair is *not* excluded from
the average and contributes `0` to it. -/
theorem C1_degenerate_counterexample :
    min (tblRows (["k", "k"] : List String)) (tblCols (["u", "v"] : List String)) = 1 ∧
    exValidRecs (processBatches (fun s => s)
        [("A", ["k", "k"]), ("B", ["u", "v"])] ["A", "B"] 20)
      = [{ col1 := "A", col2 := "B", value := F.num 0 }] ∧
    exValidCount (processBatches (fun s => s)
        [("A", ["k", "k"]), ("B", ["u", "v"])] ["A", "B"] 20) = 1 := by
  with_unfolding_all decide

/-- C1 witness: both halves of the amended claim at concrete inputs — a
contributing (non-degenerate) pair on the app.py path has `min(shape) = 2`,
and the degenerate pair on the app2.py path is counted with value `0`. -/
theorem C1_degenerate_amended_witness :
    (2 ≤ min (tblRows (["x", "x", "y", "y"] : List String))
        (tblCols (["u", "u", "v", "v"] : List String))) ∧
    ((processPair (fun s => s) [("A", ["k", "k"]), ("B", ["u", "v"])] "A" "B").value
        = F.num 0 ∧
      processPair (fun s => s) [("A", ["k", "k"]), ("B", ["u", "v"])] "A" "B"
        ∈ exValidRecs (processBatches (fun s => s)
            [("A", ["k", "k"]), ("B", ["u", "v"])] ["A", "B"] 20)) :=
  ⟨C1_degenerate_amended.1 [("A", ["x", "x", "y", "y"]), ("B", ["u", "u", "v", "v"])]
      (AvgPair.mk ("A", ["x", "x", "y", "y"]) ("B", ["u", "u", "v", "v"])
        (cramersVsqApp (["x", "x", "y", "y"] : List String) ["u", "u", "v", "v"]))
      (by with_unfolding_all decide),
   C1_degenerate_amended.2 (fun s => s) [("A", ["k", "k"]), ("B", ["u", "v"])]
      ["A", "B"] 20 "A" "B" (by decide) (by decide) (by decide) (by decide) (by decide)
      (by with_unfolding_all decide)⟩

/-- C9 (amended): `chi_square_tests` and `multi_variable_analysis` do
return their result lists sorted descending by Cramér's V (stated for
runs where every emitted strength is numeric, since CPython's sort order
is unspecified for `NaN` keys); but the batch scheduler's aggregated
`pairs` list is returned in enumeration order — no sort is applied to
it. -/
theorem C9_sorted_amended :
    (∀ df : List (String × List String),
      (∀ r ∈ chiSquareTests df, r.valueSq.isNaN = false) →
      List.Sorted (byKeyDesc ChiRec.valueSq) (chiSquareTests df)) ∧
    (∀ df : List (String × List String),
      (∀ r ∈ multiVariableAnalysis df, r.valueSq.isNaN = false) →
      List.Sorted (byKeyDesc MultiRec.valueSq) (multiVariableAnalysis df)) ∧
    (∀ (ncea : String → String) (data : List (String × List String))
        (sel : List String) (bs : ℕ), 0 < bs → 2 ≤ sel.length →
      exPairs (processBatches ncea data sel bs)
        = (combinations2 sel).map (fun p => processPair ncea data p.1 p.2)) := by
  refine ⟨?_, ?_, ?_⟩
  · intro df _
    simp only [chiSquareTests]
    split
    · exact List.sorted_nil
    · exact List.sorted_insertionSort _ _
  · intro df _
    simp only [multiVariableAnalysis]
    split
    · exact List.sorted_nil
    · exact List.sorted_insertionSort _ _
  · intro ncea data sel bs hbs hlen
    simp only [processBatches]
    rw [if_neg (by omega)]
    simp only [exPairs]
    rw [processLoop_eq_map hbs]

/-- C9 counterexample: with a constant column `A` and perfectly
associated columns `B`, `C`, the scheduler's final `pairs` list carries
strengths `[0, 0, 1]` in enumeration order — not descending. -/
theorem C9_sorted_counterexample :
    ¬ List.Sorted (byKeyDesc PairRec.value)
      (exPairs (processBatches (fun s => s)
        [("A", ["k", "k", "k", "k"]), ("B", ["x", "x", "y", "y"]),
         ("C", ["u", "u", "v", "v"])] ["A", "B", "C"] 20)) := by
  with_unfolding_all decide

/-- C9 witness: the amended claim at concrete inputs — a numeric
chi-square run comes out sorted, and a concrete scheduler run returns
exactly the enumeration-order map. -/
theorem C9_sorted_amended_witness :
    List.Sorted (byKeyDesc ChiRec.valueSq)
      (chiSquareTests [("a_x", ["x", "x", "y", "y"]), ("b_z", ["u", "u", "v", "v"])]) ∧
    exPairs (processBatches (fun s => s) [("A", ["k", "k"]), ("B", ["u", "v"])]
        ["A", "B"] 20)
      = (combinations2 ["A", "B"]).map
          (fun p => processPair (fun s => s) [("A", ["k", "k"]), ("B", ["u", "v"])] p.1 p.2) :=
  ⟨C9_sorted_amended.1 [("a_x", ["x", "x", "y", "y"]), ("b_z", ["u", "u", "v", "v"])]
      (by with_unfolding_all decide),
   C9_sorted_amended.2.2 (fun s => s) [("A", ["k", "k"]), ("B", ["u", "v"])]
      ["A", "B"] 20 (by decide) (by decide)⟩

end SchoolAI
